import Mathlib

/-!
Verification of the clip-status / artifact-probing / filtering core of
`src/dashboard.py` (a Streamlit production dashboard).  The Python code is
shallowly embedded: filesystem state is an explicit record of pure query
functions, paths are strings joined with "/", and Python functions that can
raise return `Option`.
-/

namespace Dashboard

/-- Abstract filesystem state, as seen through the only queries the dashboard
code performs: `Path.exists()`, `Path.is_dir()`, the sorted `*.mp4` glob of a
directory (`sorted(sub.glob("*.mp4"))`), and reading a file's text. -/
structure FS where
  exists_file : String → Bool
  is_dir : String → Bool
  glob_mp4 : String → List String
  read_file : String → String

/-- `pathlib` path joining (`a / b`). -/
def path_join (a b : String) : String := a ++ "/" ++ b

/-- Result of `get_video_variants`: the dict
`{"prompt_a": [...], "prompt_b": [...]}`. -/
structure VideoVariants where
  prompt_a : List String
  prompt_b : List String
deriving Repr, DecidableEq

/-- The videos found for one variant-group key: the body of the
`for key in ("prompt_a", "prompt_b")` loop in `get_video_variants`
(dashboard.py lines 73-78).  A group yields files only when the per-clip
directory and the group sub-directory are both directories. -/
def variant_group_videos (fs : FS) (clip_id clips_dir key : String) : List String :=
  let clip_dir := path_join clips_dir clip_id
  if fs.is_dir clip_dir && fs.is_dir (path_join clip_dir key) then
    fs.glob_mp4 (path_join clip_dir key)
  else
    []

/-- `get_video_variants` (dashboard.py lines 70-83): probe the modern layout
`<clips_dir>/<clip_id>/{prompt_a,prompt_b}/*.mp4`, then fall back to the
legacy single file `<clip_id>_clip.mp4` only when both groups are empty. -/
def get_video_variants (fs : FS) (clip_id clips_dir : String) : VideoVariants :=
  let pa := variant_group_videos fs clip_id clips_dir "prompt_a"
  let pb := variant_group_videos fs clip_id clips_dir "prompt_b"
  let old_clip := path_join clips_dir (clip_id ++ "_clip.mp4")
  if fs.exists_file old_clip && pa.isEmpty && pb.isEmpty then
    { prompt_a := [old_clip], prompt_b := pb }
  else
    { prompt_a := pa, prompt_b := pb }

/-- `get_status` (dashboard.py lines 86-97): "done" when any video variant
exists, otherwise "partial" when a first or last frame image exists,
otherwise "todo". -/
def get_status (fs : FS) (clip_id frames_dir clips_dir : String) : String :=
  let has_first := fs.exists_file (path_join frames_dir (clip_id ++ "_first.png"))
  let has_last := fs.exists_file (path_join frames_dir (clip_id ++ "_last.png"))
  let variants := get_video_variants fs clip_id clips_dir
  let has_videos := !variants.prompt_a.isEmpty || !variants.prompt_b.isEmpty
  if has_videos then "done"
  else if has_first || has_last then "partial"
  else "todo"

/-- A clip record, restricted to the keys the embedded operations read
(`clip_id`, `scene_id`, `characters`, `location`).  The remaining JSON keys
(prompts, duration, ...) are opaque to the status and filter logic. -/
structure Clip where
  clip_id : String
  scene_id : String
  characters : List String
  location : String
deriving Repr, DecidableEq

/-- `load_clips` (dashboard.py lines 61-67): return `[]` when the prompts
file does not exist, otherwise parse its JSON contents.  `parse_json` stands
for `json.load` on the file's text. -/
def load_clips (fs : FS) (parse_json : String → List Clip) (prompts_file : String) :
    List Clip :=
  if fs.exists_file prompts_file then parse_json (fs.read_file prompts_file) else []

/-- The status-filter key lookup
`{"Готово": "done", "Частично": "partial", "Не начато": "todo"}[selected_status]`
(dashboard.py line 350); `none` models the `KeyError` on any other key. -/
def status_key_of (s : String) : Option String :=
  if s = "Готово" then some "done"
  else if s = "Частично" then some "partial"
  else if s = "Не начато" then some "todo"
  else none

/-- The four sidebar filter selections of `page_clips`; each is either
"Все" (match all) or a specific value. -/
structure FilterSel where
  scene : String
  status : String
  char : String
  loc : String

/-- The filter section of `page_clips` (dashboard.py lines 345-355): apply
the scene, status, character and location filters in order.  `none` models
the `KeyError` raised by the status-key lookup on an unknown status label. -/
def apply_filters (fs : FS) (frames_dir clips_dir : String) (clips : List Clip)
    (sel : FilterSel) : Option (List Clip) :=
  let f1 := if sel.scene ≠ "Все" then clips.filter (fun c => c.scene_id == sel.scene) else clips
  let f2? : Option (List Clip) :=
    if sel.status ≠ "Все" then
      match status_key_of sel.status with
      | some k =>
          some (f1.filter (fun c => get_status fs c.clip_id frames_dir clips_dir == k))
      | none => none
    else some f1
  f2?.map (fun f2 =>
    let f3 := if sel.char ≠ "Все" then f2.filter (fun c => c.characters.contains sel.char) else f2
    if sel.loc ≠ "Все" then f3.filter (fun c => c.location == sel.loc) else f3)

/-- The whitespace characters removed by Python `str.strip()`, restricted to
the ASCII repertoire (CPython also strips further Unicode whitespace, none of
which occurs in the dashboard's inputs). -/
def is_py_space (c : Char) : Bool :=
  c == ' ' || c == '\t' || c == '\n' || c == '\r' || c == '\x0b' || c == '\x0c'

/-- Python `str.strip()` over the character list of a string. -/
def pyStrip (cs : List Char) : List Char :=
  ((cs.dropWhile is_py_space).reverse.dropWhile is_py_space).reverse

/-- Python `str.startswith(pat)`: `beginsWith pat cs` holds when `pat` begins
the character list `cs`. -/
def beginsWith : List Char → List Char → Bool
  | [], _ => true
  | _ :: _, [] => false
  | p :: ps, c :: cs => p == c && beginsWith ps cs

/-- Upper-case Cyrillic letters (А-Я and Ё), the non-ASCII letters occurring
in the dashboard's scenario files. -/
def is_cyr_upper (c : Char) : Bool :=
  (0x410 ≤ c.toNat && c.toNat ≤ 0x42F) || c.toNat == 0x401

/-- Lower-case Cyrillic letters (а-я and ё). -/
def is_cyr_lower (c : Char) : Bool :=
  (0x430 ≤ c.toNat && c.toNat ≤ 0x44F) || c.toNat == 0x451

/-- A cased character, for the Python `str.isupper()` model: ASCII or
Cyrillic letter. -/
def py_cased (c : Char) : Bool :=
  c.isUpper || c.isLower || is_cyr_upper c || is_cyr_lower c

/-- An upper-case character, for the Python `str.isupper()` model. -/
def py_upper_char (c : Char) : Bool :=
  c.isUpper || is_cyr_upper c

/-- Python `str.isupper()`: at least one cased character and every cased
character upper-case (modelled over the ASCII+Cyrillic repertoire). -/
def pyIsUpper (cs : List Char) : Bool :=
  cs.any py_cased && cs.all (fun c => !py_cased c || py_upper_char c)

/-- The scene-boundary test of `page_scenario` (dashboard.py lines 590-596):
a line opens a new block when its stripped form is non-blank and starts with
"СЦЕНА", starts with "INT.", starts with "EXT.", or is fully upper-case and
longer than ten characters. -/
def is_scene_boundary (line : List Char) : Bool :=
  let stripped := pyStrip line
  !stripped.isEmpty &&
    (beginsWith "СЦЕНА".data stripped ||
     beginsWith "INT.".data stripped ||
     beginsWith "EXT.".data stripped ||
     (pyIsUpper stripped && stripped.length > 10))

/-- Python `"\n".join(blocks)`. -/
def joinNL : List (List Char) → List Char
  | [] => []
  | [b] => b
  | b :: bs => b ++ '\n' :: joinNL bs

/-- Python `str.split(sep)` for a one-character separator: split on every
occurrence, keeping empty pieces (so the result is never empty). -/
def pySplit (sep : Char) : List Char → List (List Char)
  | [] => [[]]
  | c :: cs =>
    let rest := pySplit sep cs
    if c == sep then [] :: rest
    else (c :: rest.headD []) :: rest.tail

/-- The block-accumulation loop of `page_scenario` (dashboard.py lines
586-603): `blocks` holds the finished blocks, `current` the lines of the
block being built; a boundary line flushes a non-empty `current` and starts
a new block, any other line is appended to `current`, and a non-empty
`current` is flushed at the end. -/
def segment_lines_aux (blocks : List (List Char)) (current : List (List Char)) :
    List (List Char) → List (List Char)
  | [] => if current.isEmpty then blocks else blocks ++ [joinNL current]
  | line :: rest =>
    if is_scene_boundary line then
      segment_lines_aux (if current.isEmpty then blocks else blocks ++ [joinNL current])
        [line] rest
    else
      segment_lines_aux blocks (current ++ [line]) rest

/-- Scenario segmentation on a list of lines, starting with no blocks and an
empty current block. -/
def segment_lines (lines : List (List Char)) : List (List Char) :=
  segment_lines_aux [] [] lines

/-- Scenario segmentation of the raw scenario text:
`lines = text.split("\n")` then the block loop (dashboard.py lines 586-603). -/
def scenario_blocks (text : List Char) : List (List Char) :=
  segment_lines (pySplit '\n' text)

/-- The value of a string of decimal digits. -/
def decimal_val (ds : List Char) : Nat :=
  ds.foldl (fun a c => 10 * a + (c.toNat - '0'.toNat)) 0

/-- An ASCII decimal digit. -/
def is_digit_char (c : Char) : Bool :=
  48 ≤ c.toNat && c.toNat ≤ 57

/-- The digit-run parse at the core of Python `int(str)`: a non-empty
all-digit string, read in base 10. -/
def py_int_core (ds : List Char) : Option Int :=
  if !ds.isEmpty && ds.all is_digit_char then some ((decimal_val ds : Nat) : Int) else none

/-- Python `int(str)`: strip whitespace, allow one optional sign, then
require a non-empty run of digits; `none` models the `ValueError` otherwise.
(CPython additionally accepts underscore digit separators and non-ASCII
digits; the dashboard's clip identifiers use neither.) -/
def pyInt (cs : List Char) : Option Int :=
  let t := pyStrip cs
  if beginsWith ['-'] t then (py_int_core (t.drop 1)).map (fun n => -n)
  else if beginsWith ['+'] t then py_int_core (t.drop 1)
  else py_int_core t

/-- `format_clip_id` (dashboard.py lines 144-149): split the identifier on
"_", parse `parts[0][1:]` as the scene number (`int(...)`, `ValueError` on a
non-numeric part), then take `ord(parts[1])` (`IndexError` when there is no
second part, `TypeError` unless it is a single character) and render
"Сцена <scene>. Часть <part>".  `none` models the raised exceptions. -/
def format_clip_id (clip_id : String) : Option String :=
  let parts := pySplit '_' clip_id.data
  match pyInt ((parts.headD []).drop 1) with
  | none => none
  | some scene_num =>
    match parts[1]? with
    | none => none
    | some p1 =>
      match p1 with
      | [c] =>
          some ("Сцена " ++ toString scene_num ++ ". Часть " ++
            toString ((c.toNat : Int) - ('A'.toNat : Int) + 1))
      | _ => none

/-- A filesystem with no files and no directories. -/
def fs_empty : FS :=
  { exists_file := fun _ => false
    is_dir := fun _ => false
    glob_mp4 := fun _ => []
    read_file := fun _ => "" }

/-- A filesystem holding exactly the legacy single video
`clips/S01_A_clip.mp4`: no directories, no frame images. -/
def fs_legacy_video_only : FS :=
  { exists_file := fun p => p == "clips/S01_A_clip.mp4"
    is_dir := fun _ => false
    glob_mp4 := fun _ => []
    read_file := fun _ => "" }

/-- A filesystem holding exactly the first-frame image
`frames/S01_A_first.png`: no videos, no directories. -/
def fs_first_frame_only : FS :=
  { exists_file := fun p => p == "frames/S01_A_first.png"
    is_dir := fun _ => false
    glob_mp4 := fun _ => []
    read_file := fun _ => "" }

/-- A filesystem where clip S01_A has a modern-layout video
`clips/S01_A/prompt_a/v1.mp4` and the legacy file `clips/S01_A_clip.mp4`
also exists. -/
def fs_modern_video : FS :=
  { exists_file := fun p => p == "clips/S01_A_clip.mp4"
    is_dir := fun p => p == "clips/S01_A" || p == "clips/S01_A/prompt_a"
    glob_mp4 := fun p => if p == "clips/S01_A/prompt_a" then ["clips/S01_A/prompt_a/v1.mp4"] else []
    read_file := fun _ => "" }

/-- Sample clip records for concrete filter runs. -/
def clip_s01a : Clip := { clip_id := "S01_A", scene_id := "S01", characters := ["amin"], location := "Garage" }

/-- Second sample clip. -/
def clip_s01b : Clip := { clip_id := "S01_B", scene_id := "S01", characters := ["papa"], location := "Garage" }

/-- Third sample clip. -/
def clip_s02a : Clip := { clip_id := "S02_A", scene_id := "S02", characters := ["amin", "papa"], location := "Amin room" }

/-! ## Theorems -/

/-- The prober's result groups are both empty exactly when both modern
variant groups are empty and the legacy file is absent. -/
theorem videos_empty_iff (fs : FS) (cid cdir : String) :
    ((get_video_variants fs cid cdir).prompt_a = [] ∧
     (get_video_variants fs cid cdir).prompt_b = []) ↔
    (variant_group_videos fs cid cdir "prompt_a" = [] ∧
     variant_group_videos fs cid cdir "prompt_b" = [] ∧
     fs.exists_file (path_join cdir (cid ++ "_clip.mp4")) = false) := by
  simp only [get_video_variants]
  split
  next h =>
    rw [Bool.and_eq_true, Bool.and_eq_true, List.isEmpty_iff, List.isEmpty_iff] at h
    obtain ⟨⟨he, ha⟩, hb⟩ := h
    simp [he, ha, hb]
  next h =>
    rw [Bool.and_eq_true, Bool.and_eq_true, List.isEmpty_iff, List.isEmpty_iff] at h
    constructor
    · rintro ⟨ha, hb⟩
      refine ⟨ha, hb, ?_⟩
      by_contra hne
      rw [Bool.not_eq_false] at hne
      exact h ⟨⟨hne, ha⟩, hb⟩
    · rintro ⟨ha, hb, _⟩
      exact ⟨ha, hb⟩

/-- `get_status` restated as a decision tree over the prober result and the
frame-image existence checks. -/
theorem get_status_spec (fs : FS) (cid fdir cdir : String) :
    get_status fs cid fdir cdir =
      if (get_video_variants fs cid cdir).prompt_a = [] ∧
         (get_video_variants fs cid cdir).prompt_b = []
      then (if fs.exists_file (path_join fdir (cid ++ "_first.png")) = true ∨
               fs.exists_file (path_join fdir (cid ++ "_last.png")) = true
            then "partial" else "todo")
      else "done" := by
  simp only [get_status]
  by_cases ha : (get_video_variants fs cid cdir).prompt_a = [] <;>
  by_cases hb : (get_video_variants fs cid cdir).prompt_b = [] <;>
  by_cases hf : fs.exists_file (path_join fdir (cid ++ "_first.png")) = true <;>
  by_cases hl : fs.exists_file (path_join fdir (cid ++ "_last.png")) = true <;>
  simp [ha, hb, hf, hl, List.isEmpty_iff]

/-- C1: ingredient-rich status policy — any video artifact (either variant
group, or the legacy fallback file) gives status "done" regardless of frame
images; with no video at all, at least one frame image gives "partial". -/
theorem ingredient_status_policy (fs : FS) (clip_id frames_dir clips_dir : String) :
    ((variant_group_videos fs clip_id clips_dir "prompt_a" ≠ [] ∨
      variant_group_videos fs clip_id clips_dir "prompt_b" ≠ [] ∨
      fs.exists_file (path_join clips_dir (clip_id ++ "_clip.mp4")) = true) →
      get_status fs clip_id frames_dir clips_dir = "done") ∧
    ((variant_group_videos fs clip_id clips_dir "prompt_a" = [] ∧
      variant_group_videos fs clip_id clips_dir "prompt_b" = [] ∧
      fs.exists_file (path_join clips_dir (clip_id ++ "_clip.mp4")) = false ∧
      (fs.exists_file (path_join frames_dir (clip_id ++ "_first.png")) = true ∨
       fs.exists_file (path_join frames_dir (clip_id ++ "_last.png")) = true)) →
      get_status fs clip_id frames_dir clips_dir = "partial") := by
  rw [get_status_spec]
  constructor
  · intro h
    rw [if_neg]
    intro hcon
    rcases (videos_empty_iff fs clip_id clips_dir).mp hcon with ⟨ha, hb, he⟩
    rcases h with h | h | h
    · exact h ha
    · exact h hb
    · rw [h] at he; simp at he
  · rintro ⟨ha, hb, he, hframe⟩
    rw [if_pos ((videos_empty_iff fs clip_id clips_dir).mpr ⟨ha, hb, he⟩), if_pos hframe]

/-- C1 witness: a clip with only the legacy video is "done"; a clip with
only a first-frame image is "partial". -/
theorem ingredient_status_policy_witness :
    get_status fs_legacy_video_only "S01_A" "frames" "clips" = "done" ∧
    get_status fs_first_frame_only "S01_A" "frames" "clips" = "partial" := by
  constructor
  · exact (ingredient_status_policy fs_legacy_video_only "S01_A" "frames" "clips").1
      (Or.inr (Or.inr (by decide)))
  · exact (ingredient_status_policy fs_first_frame_only "S01_A" "frames" "clips").2
      ⟨by decide, by decide, by decide, Or.inl (by decide)⟩

/-- C3: a clip with no video files (no variant-group videos, no legacy file)
and no frame images is "todo". -/
theorem no_artifacts_status_todo (fs : FS) (clip_id frames_dir clips_dir : String)
    (ha : variant_group_videos fs clip_id clips_dir "prompt_a" = [])
    (hb : variant_group_videos fs clip_id clips_dir "prompt_b" = [])
    (he : fs.exists_file (path_join clips_dir (clip_id ++ "_clip.mp4")) = false)
    (hf : fs.exists_file (path_join frames_dir (clip_id ++ "_first.png")) = false)
    (hl : fs.exists_file (path_join frames_dir (clip_id ++ "_last.png")) = false) :
    get_status fs clip_id frames_dir clips_dir = "todo" := by
  rw [get_status_spec, if_pos ((videos_empty_iff fs clip_id clips_dir).mpr ⟨ha, hb, he⟩),
    if_neg]
  simp [hf, hl]

/-- C3 witness: on the empty filesystem, clip S01_A is "todo". -/
theorem no_artifacts_status_todo_witness :
    get_status fs_empty "S01_A" "frames" "clips" = "todo" :=
  no_artifacts_status_todo fs_empty "S01_A" "frames" "clips"
    (by decide) (by decide) (by decide) (by decide) (by decide)

/-- C9: the status resolver is total and only ever yields "done", "partial"
or "todo". -/
theorem get_status_total (fs : FS) (clip_id frames_dir clips_dir : String) :
    get_status fs clip_id frames_dir clips_dir = "done" ∨
    get_status fs clip_id frames_dir clips_dir = "partial" ∨
    get_status fs clip_id frames_dir clips_dir = "todo" := by
  rw [get_status_spec]
  split
  · split
    · exact Or.inr (Or.inl rfl)
    · exact Or.inr (Or.inr rfl)
  · exact Or.inl rfl

/-- A variant group probes to `[]` whenever the per-clip directory is not a
directory (the legacy single-file layout). -/
theorem variant_group_videos_of_not_dir (fs : FS) (clip_id clips_dir key : String)
    (hdir : fs.is_dir (path_join clips_dir clip_id) = false) :
    variant_group_videos fs clip_id clips_dir key = [] := by
  simp [variant_group_videos, hdir]

/-- C2 counterexample: for the clip S01_A stored in the legacy single-file
layout (no per-clip directory), with the legacy video present but neither
frame image, the code derives "done" — not "partial" as the claimed policy
("done" iff first frame AND last frame AND video) would require. -/
theorem legacy_policy_counterexample :
    fs_legacy_video_only.is_dir (path_join "clips" "S01_A") = false ∧
    fs_legacy_video_only.exists_file (path_join "frames" ("S01_A" ++ "_first.png")) = false ∧
    fs_legacy_video_only.exists_file (path_join "frames" ("S01_A" ++ "_last.png")) = false ∧
    fs_legacy_video_only.exists_file (path_join "clips" ("S01_A" ++ "_clip.mp4")) = true ∧
    get_status fs_legacy_video_only "S01_A" "frames" "clips" = "done" := by
  refine ⟨rfl, rfl, rfl, rfl, rfl⟩

/-- C2 (amended): legacy single-file layout policy as implemented — status
is "done" iff the single clip video exists (frame images are not required);
when the video is absent, status is "partial" iff at least one frame image
exists, and "todo" when none of the three files exist. -/
theorem legacy_layout_status (fs : FS) (clip_id frames_dir clips_dir : String)
    (hdir : fs.is_dir (path_join clips_dir clip_id) = false) :
    (get_status fs clip_id frames_dir clips_dir = "done" ↔
      fs.exists_file (path_join clips_dir (clip_id ++ "_clip.mp4")) = true) ∧
    (fs.exists_file (path_join clips_dir (clip_id ++ "_clip.mp4")) = false →
      (get_status fs clip_id frames_dir clips_dir = "partial" ↔
        (fs.exists_file (path_join frames_dir (clip_id ++ "_first.png")) = true ∨
         fs.exists_file (path_join frames_dir (clip_id ++ "_last.png")) = true))) ∧
    (fs.exists_file (path_join clips_dir (clip_id ++ "_clip.mp4")) = false →
     fs.exists_file (path_join frames_dir (clip_id ++ "_first.png")) = false →
     fs.exists_file (path_join frames_dir (clip_id ++ "_last.png")) = false →
      get_status fs clip_id frames_dir clips_dir = "todo") := by
  have ha := variant_group_videos_of_not_dir fs clip_id clips_dir "prompt_a" hdir
  have hb := variant_group_videos_of_not_dir fs clip_id clips_dir "prompt_b" hdir
  rw [get_status_spec]
  by_cases he : fs.exists_file (path_join clips_dir (clip_id ++ "_clip.mp4")) = true
  · have hne : ¬((get_video_variants fs clip_id clips_dir).prompt_a = [] ∧
        (get_video_variants fs clip_id clips_dir).prompt_b = []) := by
      intro hcon
      rcases (videos_empty_iff fs clip_id clips_dir).mp hcon with ⟨_, _, hfa⟩
      rw [hfa] at he
      exact Bool.noConfusion he
    rw [if_neg hne]
    refine ⟨⟨fun _ => he, fun _ => rfl⟩, fun hfalse => ?_, fun hfalse _ _ => ?_⟩
    · rw [he] at hfalse; exact Bool.noConfusion hfalse
    · rw [he] at hfalse; exact Bool.noConfusion hfalse
  · rw [Bool.not_eq_true] at he
    rw [if_pos ((videos_empty_iff fs clip_id clips_dir).mpr ⟨ha, hb, he⟩)]
    by_cases hframe : fs.exists_file (path_join frames_dir (clip_id ++ "_first.png")) = true ∨
        fs.exists_file (path_join frames_dir (clip_id ++ "_last.png")) = true
    · rw [if_pos hframe]
      refine ⟨⟨fun hc => absurd hc (by decide), fun htrue => ?_⟩,
        fun _ => ⟨fun _ => hframe, fun _ => rfl⟩, fun _ hf hl => ?_⟩
      · rw [htrue] at he; exact Bool.noConfusion he
      · rcases hframe with h | h
        · rw [hf] at h; exact Bool.noConfusion h
        · rw [hl] at h; exact Bool.noConfusion h
    · rw [if_neg hframe]
      exact ⟨⟨fun hc => absurd hc (by decide), fun htrue => by
          rw [htrue] at he; exact Bool.noConfusion he⟩,
        fun _ => ⟨fun hc => absurd hc (by decide), fun hp => absurd hp hframe⟩,
        fun _ _ _ => rfl⟩

/-- C2 (amended) witness: with only the legacy video the status is "done";
with only a first-frame image (and no video) it is "partial". -/
theorem legacy_layout_status_witness :
    get_status fs_legacy_video_only "S01_A" "frames" "clips" = "done" ∧
    fs_first_frame_only.exists_file (path_join "clips" ("S01_A" ++ "_clip.mp4")) = false ∧
    get_status fs_first_frame_only "S01_A" "frames" "clips" = "partial" := by
  refine ⟨?_, rfl, ?_⟩
  · exact (legacy_layout_status fs_legacy_video_only "S01_A" "frames" "clips"
      (by decide)).1.mpr (by decide)
  · exact ((legacy_layout_status fs_first_frame_only "S01_A" "frames" "clips"
      (by decide)).2.1 (by decide)).mpr (Or.inl (by decide))

/-- C4: the legacy single file is in the prober's result iff it exists and
both modern variant groups yielded no videos; whenever the modern layout
yields at least one video the legacy file is ignored and the modern groups
are returned unchanged.  (The side conditions say that the sub-directory
globs do not themselves list the legacy path — true of a real filesystem,
where glob results live inside the globbed directory.) -/
theorem legacy_fallback_gating (fs : FS) (clip_id clips_dir : String)
    (hga : path_join clips_dir (clip_id ++ "_clip.mp4") ∉
      variant_group_videos fs clip_id clips_dir "prompt_a")
    (hgb : path_join clips_dir (clip_id ++ "_clip.mp4") ∉
      variant_group_videos fs clip_id clips_dir "prompt_b") :
    ((path_join clips_dir (clip_id ++ "_clip.mp4") ∈
        (get_video_variants fs clip_id clips_dir).prompt_a ∨
      path_join clips_dir (clip_id ++ "_clip.mp4") ∈
        (get_video_variants fs clip_id clips_dir).prompt_b) ↔
     (fs.exists_file (path_join clips_dir (clip_id ++ "_clip.mp4")) = true ∧
      variant_group_videos fs clip_id clips_dir "prompt_a" = [] ∧
      variant_group_videos fs clip_id clips_dir "prompt_b" = [])) ∧
    ((variant_group_videos fs clip_id clips_dir "prompt_a" ≠ [] ∨
      variant_group_videos fs clip_id clips_dir "prompt_b" ≠ []) →
     get_video_variants fs clip_id clips_dir =
       { prompt_a := variant_group_videos fs clip_id clips_dir "prompt_a",
         prompt_b := variant_group_videos fs clip_id clips_dir "prompt_b" }) := by
  simp only [get_video_variants]
  split
  next h =>
    rw [Bool.and_eq_true, Bool.and_eq_true, List.isEmpty_iff, List.isEmpty_iff] at h
    obtain ⟨⟨he, ha⟩, hb⟩ := h
    constructor
    · exact ⟨fun _ => ⟨he, ha, hb⟩, fun _ => Or.inl (by simp)⟩
    · rintro (h | h)
      · exact absurd ha h
      · exact absurd hb h
  next h =>
    rw [Bool.and_eq_true, Bool.and_eq_true, List.isEmpty_iff, List.isEmpty_iff] at h
    constructor
    · constructor
      · rintro (hm | hm)
        · exact absurd hm hga
        · exact absurd hm hgb
      · rintro ⟨he, ha, hb⟩
        exact absurd ⟨⟨he, ha⟩, hb⟩ h
    · intro _
      rfl

/-- C4 witness: with a modern-layout video present alongside the legacy
file, the prober returns just the modern video and ignores the legacy file. -/
theorem legacy_fallback_gating_witness :
    fs_modern_video.exists_file "clips/S01_A_clip.mp4" = true ∧
    get_video_variants fs_modern_video "S01_A" "clips" =
      { prompt_a := ["clips/S01_A/prompt_a/v1.mp4"], prompt_b := [] } := by
  refine ⟨rfl, ?_⟩
  have h := (legacy_fallback_gating fs_modern_video "S01_A" "clips"
    (by decide) (by decide)).2 (Or.inl (by decide))
  exact h.trans (by decide)

/-- C5: loading the clip catalog from a path that does not exist yields the
empty catalog; no error path exists (`load_clips` is a total function). -/
theorem load_clips_missing_file (fs : FS) (parse_json : String → List Clip)
    (prompts_file : String) (h : fs.exists_file prompts_file = false) :
    load_clips fs parse_json prompts_file = [] := by
  simp [load_clips, h]

/-- C5 witness: a missing prompts file on the empty filesystem loads as `[]`
even under a parser that would return a clip. -/
theorem load_clips_missing_file_witness :
    fs_empty.exists_file "series/ep1/prompts.json" = false ∧
    load_clips fs_empty (fun _ => [clip_s01a]) "series/ep1/prompts.json" = [] :=
  ⟨rfl, load_clips_missing_file fs_empty (fun _ => [clip_s01a]) "series/ep1/prompts.json" rfl⟩

/-- C6: with a specific scene selected (and every other filter on "Все"),
the result is exactly the subsequence of clips whose scene identifier equals
the selection, in original order, and never longer than the catalog. -/
theorem scene_filter_claim (fs : FS) (frames_dir clips_dir : String) (clips : List Clip)
    (selected_scene : String) (hsel : selected_scene ≠ "Все") :
    apply_filters fs frames_dir clips_dir clips
        { scene := selected_scene, status := "Все", char := "Все", loc := "Все" } =
      some (clips.filter (fun c => c.scene_id == selected_scene)) ∧
    (∀ c ∈ clips.filter (fun c => c.scene_id == selected_scene),
      c.scene_id = selected_scene) ∧
    (clips.filter (fun c => c.scene_id == selected_scene)).Sublist clips ∧
    (clips.filter (fun c => c.scene_id == selected_scene)).length ≤ clips.length := by
  refine ⟨?_, ?_, List.filter_sublist _, List.length_filter_le _ _⟩
  · simp [apply_filters, hsel]
  · intro c hc
    exact eq_of_beq (List.mem_filter.mp hc).2

/-- C6 witness: filtering the three-clip catalog by scene "S02" keeps
exactly the one clip of that scene. -/
theorem scene_filter_claim_witness :
    apply_filters fs_empty "frames" "clips" [clip_s01a, clip_s01b, clip_s02a]
        { scene := "S02", status := "Все", char := "Все", loc := "Все" } =
      some [clip_s02a] := by
  have h := (scene_filter_claim fs_empty "frames" "clips"
    [clip_s01a, clip_s01b, clip_s02a] "S02" (by decide)).1
  exact h.trans (by decide)

/-- C7: with a specific character selected (other filters "Все"), the result
is exactly the subsequence of clips whose character list contains the
selection (a membership test); with every filter on "Все" the catalog is
returned unchanged. -/
theorem char_filter_claim (fs : FS) (frames_dir clips_dir : String) (clips : List Clip)
    (selected_char : String) (hsel : selected_char ≠ "Все") :
    apply_filters fs frames_dir clips_dir clips
        { scene := "Все", status := "Все", char := selected_char, loc := "Все" } =
      some (clips.filter (fun c => c.characters.contains selected_char)) ∧
    (∀ c ∈ clips.filter (fun c => c.characters.contains selected_char),
      selected_char ∈ c.characters) ∧
    apply_filters fs frames_dir clips_dir clips
        { scene := "Все", status := "Все", char := "Все", loc := "Все" } = some clips := by
  refine ⟨?_, ?_, ?_⟩
  · simp [apply_filters, hsel]
  · intro c hc
    exact List.mem_of_elem_eq_true (List.mem_filter.mp hc).2
  · simp [apply_filters]

/-- C7 witness: filtering the three-clip catalog by character "amin" keeps
the two clips listing amin, and the all-"Все" selection is the identity. -/
theorem char_filter_claim_witness :
    apply_filters fs_empty "frames" "clips" [clip_s01a, clip_s01b, clip_s02a]
        { scene := "Все", status := "Все", char := "amin", loc := "Все" } =
      some [clip_s01a, clip_s02a] ∧
    apply_filters fs_empty "frames" "clips" [clip_s01a, clip_s01b, clip_s02a]
        { scene := "Все", status := "Все", char := "Все", loc := "Все" } =
      some [clip_s01a, clip_s01b, clip_s02a] := by
  have h := char_filter_claim fs_empty "frames" "clips"
    [clip_s01a, clip_s01b, clip_s02a] "amin" (by decide)
  exact ⟨h.1.trans (by decide), h.2.2⟩

/-- A list is a starting segment of itself followed by anything. -/
theorem beginsWith_append_self (l r : List Char) : beginsWith l (l ++ r) = true := by
  induction l with
  | nil => rfl
  | cons c cs ih => simp [beginsWith, ih]

/-- A joined block starts with its first line. -/
theorem beginsWith_joinNL (l : List Char) (ls : List (List Char)) :
    beginsWith l (joinNL (l :: ls)) = true := by
  cases ls with
  | nil =>
    have h := beginsWith_append_self l []
    rwa [List.append_nil] at h
  | cons b bs =>
    exact beginsWith_append_self l ('\n' :: joinNL (b :: bs))

/-- A fully upper-case line longer than ten characters (once stripped) is a
scene boundary. -/
theorem is_scene_boundary_of_upper (line : List Char)
    (hu : pyIsUpper (pyStrip line) = true) (hl : 10 < (pyStrip line).length) :
    is_scene_boundary line = true := by
  have hie : (pyStrip line).isEmpty = false := by
    cases h : pyStrip line with
    | nil => rw [h] at hl; simp at hl
    | cons a as => rfl
  simp [is_scene_boundary, hie, hu, hl]

/-- Running the block loop over non-boundary lines only extends the current
block. -/
theorem segment_lines_aux_no_boundary (b : List (List Char))
    (hb : ∀ l ∈ b, is_scene_boundary l = false) :
    ∀ (blocks current : List (List Char)) (rest : List (List Char)),
      segment_lines_aux blocks current (b ++ rest) =
        segment_lines_aux blocks (current ++ b) rest := by
  induction b with
  | nil => intro blocks current rest; simp
  | cons x xs ih =>
    intro blocks current rest
    have hx : is_scene_boundary x = false := hb x (List.mem_cons_self x xs)
    have hxs : ∀ l ∈ xs, is_scene_boundary l = false :=
      fun l hl => hb l (List.mem_cons_of_mem x hl)
    rw [List.cons_append]
    show segment_lines_aux blocks current (x :: (xs ++ rest)) = _
    simp only [segment_lines_aux]
    rw [if_neg (by simp [hx])]
    rw [ih hxs blocks (current ++ [x]) rest]
    simp [List.append_assoc]

/-- Splitting on a character absent from the list yields the singleton. -/
theorem pySplit_no_sep (sep : Char) (l : List Char) (h : sep ∉ l) :
    pySplit sep l = [l] := by
  induction l with
  | nil => rfl
  | cons c cs ih =>
    have hc : (c == sep) = false := by
      rw [beq_eq_false_iff_ne]
      intro he
      exact h (he ▸ List.mem_cons_self c cs)
    have hcs : sep ∉ cs := fun hm => h (List.mem_cons_of_mem c hm)
    simp only [pySplit]
    rw [if_neg (by simp [hc]), ih hcs]
    rfl

/-- Splitting a list that is a separator-free piece, a separator, and a
remainder peels off the piece. -/
theorem pySplit_append_sep (sep : Char) (a b : List Char) (h : sep ∉ a) :
    pySplit sep (a ++ sep :: b) = a :: pySplit sep b := by
  induction a with
  | nil =>
    simp only [List.nil_append, pySplit]
    rw [if_pos (by simp)]
  | cons c cs ih =>
    have hc : (c == sep) = false := by
      rw [beq_eq_false_iff_ne]
      intro he
      exact h (he ▸ List.mem_cons_self c cs)
    have hcs : sep ∉ cs := fun hm => h (List.mem_cons_of_mem c hm)
    simp only [List.cons_append, pySplit, List.append_eq]
    rw [if_neg (by simp [hc]), ih hcs]
    rfl

/-- Splitting a newline-join of newline-free lines recovers the lines. -/
theorem pySplit_joinNL (ls : List (List Char)) (hne : ls ≠ [])
    (h : ∀ l ∈ ls, '\n' ∉ l) :
    pySplit '\n' (joinNL ls) = ls := by
  induction ls with
  | nil => exact absurd rfl hne
  | cons x xs ih =>
    cases xs with
    | nil =>
      show pySplit '\n' (joinNL [x]) = [x]
      exact pySplit_no_sep '\n' x (h x (List.mem_cons_self x []))
    | cons y ys =>
      show pySplit '\n' (x ++ '\n' :: joinNL (y :: ys)) = x :: (y :: ys)
      rw [pySplit_append_sep '\n' x (joinNL (y :: ys)) (h x (List.mem_cons_self x (y :: ys)))]
      rw [ih (by simp) (fun l hl => h l (List.mem_cons_of_mem x hl))]

/-- C8: a non-blank line is a scene boundary exactly when its stripped form
starts with "СЦЕНА", starts with "INT." or "EXT.", or is fully upper-case
and longer than ten characters; and a two-scene text whose headers are
fully-upper-case lines longer than ten characters segments into exactly two
blocks, each starting with its header line. -/
theorem scenario_segmentation_claim :
    (∀ line : List Char, pyStrip line ≠ [] →
      (is_scene_boundary line = true ↔
        (beginsWith "СЦЕНА".data (pyStrip line) = true ∨
         beginsWith "INT.".data (pyStrip line) = true ∨
         beginsWith "EXT.".data (pyStrip line) = true ∨
         (pyIsUpper (pyStrip line) = true ∧ 10 < (pyStrip line).length)))) ∧
    (∀ (h1 h2 : List Char) (b1 b2 : List (List Char)),
      pyIsUpper (pyStrip h1) = true → 10 < (pyStrip h1).length →
      pyIsUpper (pyStrip h2) = true → 10 < (pyStrip h2).length →
      (∀ l ∈ b1, is_scene_boundary l = false) →
      (∀ l ∈ b2, is_scene_boundary l = false) →
      (∀ l ∈ (h1 :: b1 ++ h2 :: b2 : List (List Char)), '\n' ∉ l) →
      scenario_blocks (joinNL (h1 :: b1 ++ h2 :: b2)) =
        [joinNL (h1 :: b1), joinNL (h2 :: b2)] ∧
      beginsWith h1 (joinNL (h1 :: b1)) = true ∧
      beginsWith h2 (joinNL (h2 :: b2)) = true) := by
  constructor
  · intro line hne
    have hie : (pyStrip line).isEmpty = false := by
      cases h : pyStrip line with
      | nil => exact absurd h hne
      | cons a as => rfl
    simp only [is_scene_boundary, hie, Bool.not_false, Bool.true_and, Bool.or_eq_true,
      Bool.and_eq_true, decide_eq_true_eq]
    tauto
  · intro h1 h2 b1 b2 hu1 hl1 hu2 hl2 hb1 hb2 hnl
    have hbd1 : is_scene_boundary h1 = true := is_scene_boundary_of_upper h1 hu1 hl1
    have hbd2 : is_scene_boundary h2 = true := is_scene_boundary_of_upper h2 hu2 hl2
    refine ⟨?_, beginsWith_joinNL h1 b1, beginsWith_joinNL h2 b2⟩
    unfold scenario_blocks segment_lines
    rw [pySplit_joinNL (h1 :: b1 ++ h2 :: b2) (by simp) hnl]
    show segment_lines_aux [] [] (h1 :: (b1 ++ h2 :: b2)) = _
    simp only [segment_lines_aux]
    rw [if_pos hbd1]
    simp only [List.isEmpty_nil, if_true]
    rw [segment_lines_aux_no_boundary b1 hb1 [] [h1] (h2 :: b2)]
    simp only [segment_lines_aux]
    rw [if_pos hbd2]
    have haux := segment_lines_aux_no_boundary b2 hb2 [joinNL (h1 :: b1)] [h2] []
    rw [List.append_nil] at haux
    simp only [List.singleton_append, List.isEmpty_cons, Bool.false_eq_true, if_false,
      List.nil_append]
    rw [haux]
    simp [segment_lines_aux]

/-- C8 witness: a concrete two-scene text with upper-case headers splits
into its two blocks, each starting with its header. -/
theorem scenario_segmentation_claim_witness :
    scenario_blocks (joinNL ["FIRST SCENE HEADER".data, "body one".data,
        "SECOND SCENE HEADER".data, "body two".data]) =
      [joinNL ["FIRST SCENE HEADER".data, "body one".data],
       joinNL ["SECOND SCENE HEADER".data, "body two".data]] ∧
    beginsWith "FIRST SCENE HEADER".data
      (joinNL ["FIRST SCENE HEADER".data, "body one".data]) = true ∧
    beginsWith "SECOND SCENE HEADER".data
      (joinNL ["SECOND SCENE HEADER".data, "body two".data]) = true := by
  have h := scenario_segmentation_claim.2 "FIRST SCENE HEADER".data
    "SECOND SCENE HEADER".data ["body one".data] ["body two".data]
    (by decide) (by decide) (by decide) (by decide)
    (by decide) (by decide) (by decide)
  exact h

/-- A digit character is `==`-distinct from any non-digit character. -/
theorem digit_beq_false_left (c d : Char) (h : is_digit_char c = true)
    (hd : is_digit_char d = false) : (c == d) = false := by
  rw [beq_eq_false_iff_ne]
  intro he
  rw [he] at h
  exact Bool.noConfusion (hd.symm.trans h)

/-- A non-digit character is `==`-distinct from any digit character. -/
theorem digit_beq_false_right (c d : Char) (h : is_digit_char c = true)
    (hd : is_digit_char d = false) : (d == c) = false := by
  rw [beq_eq_false_iff_ne]
  intro he
  rw [← he] at h
  exact Bool.noConfusion (hd.symm.trans h)

/-- Digits are not stripped as whitespace. -/
theorem not_space_of_digit (c : Char) (h : is_digit_char c = true) :
    is_py_space c = false := by
  simp only [is_py_space]
  rw [digit_beq_false_left c ' ' h (by decide), digit_beq_false_left c '\t' h (by decide),
    digit_beq_false_left c '\n' h (by decide), digit_beq_false_left c '\r' h (by decide),
    digit_beq_false_left c '\x0b' h (by decide), digit_beq_false_left c '\x0c' h (by decide)]
  rfl

/-- `dropWhile` is the identity on a list whose members all fail the
predicate. -/
theorem dropWhile_eq_self_of_forall (p : Char → Bool) (l : List Char)
    (h : ∀ c ∈ l, p c = false) : l.dropWhile p = l := by
  cases l with
  | nil => rfl
  | cons c cs =>
    rw [List.dropWhile_cons, if_neg (by simp [h c (List.mem_cons_self c cs)])]

/-- Stripping is the identity on a list with no whitespace members. -/
theorem pyStrip_eq_self (l : List Char) (h : ∀ c ∈ l, is_py_space c = false) :
    pyStrip l = l := by
  unfold pyStrip
  rw [dropWhile_eq_self_of_forall _ _ h,
    dropWhile_eq_self_of_forall _ _ (fun c hc => h c (List.mem_reverse.mp hc)),
    List.reverse_reverse]

/-- `int()` on a non-empty all-digit string returns its decimal value. -/
theorem pyInt_digits (ds : List Char) (hne : ds ≠ [])
    (hd : ∀ c ∈ ds, is_digit_char c = true) :
    pyInt ds = some ((decimal_val ds : Nat) : Int) := by
  cases ds with
  | nil => exact absurd rfl hne
  | cons d tl =>
    have hstrip : pyStrip (d :: tl) = d :: tl :=
      pyStrip_eq_self (d :: tl) (fun c hc => not_space_of_digit c (hd c hc))
    have hd0 : is_digit_char d = true := hd d (List.mem_cons_self d tl)
    have hminus : beginsWith ['-'] (d :: tl) = false := by
      simp [beginsWith, digit_beq_false_right d '-' hd0 (by decide)]
    have hplus : beginsWith ['+'] (d :: tl) = false := by
      simp [beginsWith, digit_beq_false_right d '+' hd0 (by decide)]
    simp only [pyInt, hstrip, hminus, hplus, Bool.false_eq_true, if_false]
    simp only [py_int_core, List.all_eq_true, List.isEmpty_cons, Bool.not_false,
      Bool.true_and, hd0]
    rw [if_pos]
    exact fun x hx => hd x hx

/-- C10: `format_clip_id` is partial — on a well-formed identifier
(`S` + digits + `_` + one letter) it renders the scene number and the
letter's alphabetical index (A ↦ 1, B ↦ 2, ...); on an identifier with no
second `_`-separated component, a second component that is not a single
character, or a non-numeric scene part, it raises (modelled as `none`)
rather than returning a placeholder. -/
theorem format_clip_id_claim :
    (∀ (ds : List Char) (c : Char), ds ≠ [] → (∀ d ∈ ds, is_digit_char d = true) →
      'A' ≤ c → c ≤ 'Z' →
      format_clip_id (String.mk ('S' :: ds ++ '_' :: [c])) =
        some ("Сцена " ++ toString ((decimal_val ds : Nat) : Int) ++ ". Часть " ++
          toString ((c.toNat : Int) - ('A'.toNat : Int) + 1))) ∧
    (∀ clip_id : String,
      ((pySplit '_' clip_id.data).length = 1 → format_clip_id clip_id = none) ∧
      (∀ p1, (pySplit '_' clip_id.data)[1]? = some p1 → p1.length ≠ 1 →
        format_clip_id clip_id = none) ∧
      (pyInt (((pySplit '_' clip_id.data).headD []).drop 1) = none →
        format_clip_id clip_id = none)) := by
  constructor
  · intro ds c hne hd hA hZ
    have hsep : '_' ∉ 'S' :: ds := by
      intro hm
      rcases List.mem_cons.mp hm with he | hm2
      · exact absurd he (by decide)
      · have h1 := hd '_' hm2
        rw [show is_digit_char '_' = false from by decide] at h1
        exact Bool.noConfusion h1
    have hsep2 : '_' ∉ [c] := by
      intro hm
      have he := List.mem_singleton.mp hm
      subst he
      exact absurd hZ (by decide)
    have hparts : pySplit '_' (String.mk ('S' :: ds ++ '_' :: [c])).data =
        [('S' :: ds), [c]] := by
      show pySplit '_' (('S' :: ds) ++ '_' :: [c]) = _
      rw [pySplit_append_sep '_' ('S' :: ds) [c] hsep, pySplit_no_sep '_' [c] hsep2]
    simp only [format_clip_id]
    rw [hparts]
    simp only [List.headD_cons, List.drop_succ_cons, List.drop_zero]
    rw [pyInt_digits ds hne hd]
    rfl
  · intro clip_id
    refine ⟨?_, ?_, ?_⟩
    · intro hlen
      have h1 : (pySplit '_' clip_id.data)[1]? = none :=
        List.getElem?_eq_none (by omega)
      simp only [format_clip_id]
      cases hpi : pyInt (((pySplit '_' clip_id.data).headD []).drop 1) with
      | none => rfl
      | some v => rw [h1]
    · intro p1 hp1 hlen1
      simp only [format_clip_id]
      cases hpi : pyInt (((pySplit '_' clip_id.data).headD []).drop 1) with
      | none => rfl
      | some v =>
        rw [hp1]
        cases p1 with
        | nil => rfl
        | cons a tl =>
          cases tl with
          | nil => exact absurd rfl hlen1
          | cons b tl2 => rfl
    · intro hpi
      simp only [format_clip_id]
      rw [hpi]

/-- C10 witness: "S03_A" renders as scene 3, part 1, and "S03" (no second
component) raises. -/
theorem format_clip_id_claim_witness :
    format_clip_id "S03_A" = some "Сцена 3. Часть 1" ∧ format_clip_id "S03" = none := by
  constructor
  · have h := format_clip_id_claim.1 ['0', '3'] 'A'
      (by decide) (by decide) (by decide) (by decide)
    have e : "S03_A" = String.mk ('S' :: ['0', '3'] ++ '_' :: ['A']) := by decide
    rw [e, h]
    decide
  · exact (format_clip_id_claim.2 "S03").1 (by decide)

end Dashboard
